import Mathlib

/-!
Verification of the `whx` speaker-profile scripts
(`scripts/match_speakers.py`, `scripts/extract_speaker_embedding.py`,
`scripts/utils.py`).

The Python code is shallowly embedded: numpy float vectors become `List ℚ`,
Python dicts become association lists with last-write-wins insertion,
WhisperX JSON segments become a structure with `Option` fields mirroring
`dict.get` defaults, and the external collaborators (the pyannote embedding
model, the `ffprobe` subprocess, the filesystem) become explicit oracle
parameters.  Floating point arithmetic is idealised by exact rational
arithmetic; `np.linalg.norm` is modelled by an exact square root that is
correct on every vector whose squared norm is a perfect square of a rational
(all concrete inputs used below are of this form).
-/

namespace Whx

/-- A speaker embedding (a 1-D `np.ndarray`), modelled as a list of rationals. -/
abbrev Emb := List ℚ

/-- `np.dot` on 1-D arrays. -/
def dot (a b : Emb) : ℚ := (List.zipWith (· * ·) a b).sum

/-- Integer square root by bounded search (fuel-based so that it reduces in
the kernel): the largest `m ≤ fuel` with `m * m ≤ n`. -/
def isqrtGo (n : ℕ) : ℕ → ℕ
  | 0 => 0
  | k + 1 => if (k + 1) * (k + 1) ≤ n then k + 1 else isqrtGo n k

/-- Integer square root: the largest `m` with `m * m ≤ n`. -/
def isqrt (n : ℕ) : ℕ := isqrtGo n n

/-- Exact square root on `ℚ`: for a nonnegative rational whose numerator and
denominator are perfect squares this is the true square root (the only case in
which `np.linalg.norm` is exactly representable and the one exercised below). -/
def ratSqrt (q : ℚ) : ℚ := (isqrt q.num.toNat : ℚ) / (isqrt q.den : ℚ)

/-- `np.linalg.norm` on a 1-D array. -/
def vnorm (a : Emb) : ℚ := ratSqrt (dot a a)

/-- `cosine_similarity` (match_speakers.py:167-169):
`np.dot(a, b) / (np.linalg.norm(a) * np.linalg.norm(b))`. -/
def cosine_similarity (a b : Emb) : ℚ := dot a b / (vnorm a * vnorm b)

/-- One entry of the WhisperX `segments` array.  Each field mirrors a JSON key
read with `segment.get(...)`; `none` means the key is absent.  The source key
`"end"` is rendered `stop` (`end` is a Lean keyword). -/
structure Segment where
  start : Option ℚ
  stop : Option ℚ
  text : Option String
  speaker : Option String
deriving DecidableEq, Repr

/-- The `json_data["segments"]` array. -/
abbrev Transcript := List Segment

/-- Python truthiness of an optional string (`if speaker:`):
`None` and `""` are falsy. -/
def truthy : Option String → Bool
  | none => false
  | some s => s ≠ ""

/-- Python dict assignment `d[k] = v`: replaces the value if the key is
present (keeping its position), otherwise appends the new binding. -/
def dictInsert (m : List (String × α)) (k : String) (v : α) : List (String × α) :=
  if (m.lookup k).isSome then
    m.map (fun p => if p.1 = k then (k, v) else p)
  else m ++ [(k, v)]

/-- `extract_speaker_segments` (match_speakers.py:70-89): the `(start, end)`
pairs of the segments carrying `speaker_label` whose duration is ≥ 2.0 s,
with `start`/`end` defaulting to `0.0` when absent. -/
def extract_speaker_segments (json_data : Transcript) (speaker_label : String) :
    List (ℚ × ℚ) :=
  json_data.filterMap (fun seg =>
    if seg.speaker = some speaker_label then
      let s := seg.start.getD 0
      let e := seg.stop.getD 0
      if e - s ≥ 2 then some (s, e) else none
    else none)

/-- Elementwise sum of two vectors (`numpy` broadcasting on equal shapes). -/
def addVec (a b : Emb) : Emb := List.zipWith (· + ·) a b

/-- `np.mean(embeddings, axis=0)` for a nonempty list of equal-length vectors. -/
def meanVec : List Emb → Emb
  | [] => []
  | e :: es => (es.foldl addVec e).map (fun x => x / ((es.length + 1 : ℕ) : ℚ))

/-- Comparison used by `sorted(segments, key=lambda x: x[1] - x[0],
reverse=True)`: duration descending.  A stable insertion sort with this
total preorder produces exactly the same list as CPython's stable sort with
`reverse=True`. -/
def durGe (a b : ℚ × ℚ) : Prop := b.2 - b.1 ≤ a.2 - a.1

instance : DecidableRel durGe := fun a b =>
  inferInstanceAs (Decidable (b.2 - b.1 ≤ a.2 - a.1))

instance : IsTotal (ℚ × ℚ) durGe := ⟨fun a b => le_total (b.2 - b.1) (a.2 - a.1)⟩

instance : IsTrans (ℚ × ℚ) durGe :=
  ⟨fun _ _ _ hab hbc => le_trans hbc hab⟩

/-- `extract_embedding_for_speaker` (match_speakers.py:92-164).  The pyannote
`model.crop` call on one `(start, end)` excerpt — including the
normalise-to-one-vector post-processing and the per-segment `try/except` —
is the oracle `segEmbed`; `none` is a per-segment extraction failure. -/
def extract_embedding_for_speaker (segEmbed : ℚ × ℚ → Option Emb)
    (segments : List (ℚ × ℚ)) (maxSegments : ℕ) : Option Emb :=
  if segments = [] then none
  else
    let segments_sorted := segments.insertionSort durGe
    let segments_to_process := segments_sorted.take maxSegments
    let embeddings := segments_to_process.filterMap segEmbed
    if embeddings = [] then none else some (meanVec embeddings)

/-- One step of the best-profile loop (match_speakers.py:227-233): the
accumulator is `(best_match, best_score)`; the score improves only on a
strictly greater similarity. -/
def bestStep (e : Emb) (acc : Option String × ℚ) (p : String × Emb) :
    Option String × ℚ :=
  if cosine_similarity e p.2 > acc.2 then (some p.1, cosine_similarity e p.2) else acc

/-- The profile-comparison part of `match_speakers` for one label with a
computed representative embedding `e` (match_speakers.py:223-241):
fold from `(None, -1.0)`, then apply the threshold.  The result is the
Python value stored in the mapping — `none` models Python `None`. -/
def resolveLabel (profiles : List (String × Emb)) (threshold : ℚ)
    (speaker_label : String) (e : Emb) : Option String :=
  let best := profiles.foldl (bestStep e) (none, -1)
  if best.2 ≥ threshold then best.1 else some speaker_label

/-- Spec-side selection rule: the first profile in store-iteration order
whose similarity to `e` is at least every profile's similarity — i.e. the
profile with maximum cosine similarity, ties resolved to whichever profile
is evaluated first. -/
def firstArgmax (e : Emb) (profiles : List (String × Emb)) :
    Option (String × Emb) :=
  profiles.find? (fun p => profiles.all (fun q =>
    decide (cosine_similarity e q.2 ≤ cosine_similarity e p.2)))

/-- Code-point-wise lexicographic comparison of character lists: Python's
string `<=` order. -/
def charListLE : List Char → List Char → Bool
  | [], _ => true
  | _ :: _, [] => false
  | a :: as, b :: bs =>
    if a.toNat < b.toNat then true
    else if b.toNat < a.toNat then false
    else charListLE as bs

/-- Python string order `a <= b`. -/
def strLe (a b : String) : Prop := charListLE a.data b.data = true

instance : DecidableRel strLe := fun a b =>
  inferInstanceAs (Decidable (charListLE a.data b.data = true))

/-- The distinct raw labels of a transcript (match_speakers.py:183-187):
truthy `speaker` values collected into a set; rendered here as a
deduplicated, lexicographically sorted list (the code iterates
`sorted(speakers)`). -/
def speakersOf (json_data : Transcript) : List String :=
  (((json_data.filterMap Segment.speaker).filter (fun s => s ≠ "")).dedup).insertionSort
    strLe

/-- `match_speakers` (match_speakers.py:172-243).  `segEmbed label seg` is the
per-segment embedding oracle for that label's audio.  Values are
`Option String`: `some n` is the Python string `n`, `none` is Python `None`
(reachable when no profile's similarity exceeds the `-1.0` sentinel yet the
threshold test passes). -/
def match_speakers (segEmbed : String → ℚ × ℚ → Option Emb)
    (json_data : Transcript) (profiles : List (String × Emb)) (threshold : ℚ) :
    List (String × Option String) :=
  let speakers := speakersOf json_data
  if profiles = [] then speakers.map (fun s => (s, some s))
  else
    speakers.map (fun speaker_label =>
      let segments := extract_speaker_segments json_data speaker_label
      if segments = [] then (speaker_label, some speaker_label)
      else
        match extract_embedding_for_speaker (segEmbed speaker_label) segments 10 with
        | none => (speaker_label, some speaker_label)
        | some e => (speaker_label, resolveLabel profiles threshold speaker_label e))

/-- The loop body of `apply_speaker_mapping` (match_speakers.py:248-251) on
one segment: `segment["speaker"]` is rewritten through the mapping when the
current label is truthy and present
(`if old_speaker and old_speaker in mapping`). -/
def apply_segment (mapping : List (String × String)) (seg : Segment) : Segment :=
  match seg.speaker with
  | none => seg
  | some old_speaker =>
    if old_speaker ≠ "" then
      match mapping.lookup old_speaker with
      | some new_speaker => { seg with speaker := some new_speaker }
      | none => seg
    else seg

/-- `apply_speaker_mapping` (match_speakers.py:246-253). -/
def apply_speaker_mapping (json_data : Transcript) (mapping : List (String × String)) :
    Transcript :=
  json_data.map (apply_segment mapping)

/-- Python `s.startswith(pre)`, modelled on the character lists
(`String.startsWith` itself does not reduce in the kernel). -/
def startsWithB (s pre : String) : Bool := pre.data.isPrefixOf s.data

/-- `build_speaker_header_mapping` (match_speakers.py:256-287). -/
def build_speaker_header_mapping (original_mapping : List (String × String)) :
    List (String × String) :=
  original_mapping.map (fun p =>
    if p.1 = "UNKNOWN" then (p.1, "[Unknown Speaker]")
    else if p.1 = p.2 then
      if startsWithB p.1 "SPEAKER_" then (p.1, "[Not Matched]")
      else (p.1, p.2)
    else (p.1, p.2))

/-- What one header entry displays, written from the spec's words as amended:
the reserved `"UNKNOWN"` label renders as the unknown-speaker sentinel; a
label equal to its resolution renders as the not-matched sentinel when it
starts with `"SPEAKER_"` and passes through unchanged otherwise; every other
label passes through as its matched display name. -/
def headerDisplaySpec (label resolved : String) : String :=
  if label = "UNKNOWN" then "[Unknown Speaker]"
  else if label = resolved then
    if startsWithB label "SPEAKER_" then "[Not Matched]" else resolved
  else resolved

/-- Round half-to-even to an integer, as CPython's float formatting and
`round` do on exactly-representable values. -/
def roundHalfEven (x : ℚ) : ℤ :=
  let f := ⌊x⌋
  let r := x - f
  if r < 1/2 then f
  else if 1/2 < r then f + 1
  else if 2 ∣ f then f else f + 1

/-- Left-pad a string with `'0'` to width `n` (the zero-fill of Python's
`"%0nd"`/`"%0n.2f"` formats on nonnegative values). -/
def padZeros (n : ℕ) (s : String) : String :=
  String.mk (List.replicate (n - s.length) '0') ++ s

/-- Python `f"{q:.2f}"` for a nonnegative rational. -/
def format2 (q : ℚ) : String :=
  let n := (roundHalfEven (q * 100)).toNat
  toString (n / 100) ++ "." ++ padZeros 2 (toString (n % 100))

/-- Python `f"{m:02d}"`. -/
def formatMin (m : ℤ) : String :=
  if 0 ≤ m ∧ m < 10 then "0" ++ toString m else toString m

/-- The `[MM:SS.hh]` timestamp of match_speakers.py:322-324:
`minutes = int(start // 60)`, `seconds = start % 60`,
`f"[{minutes:02d}:{seconds:05.2f}]"`. -/
def format_timestamp (start : ℚ) : String :=
  let minutes : ℤ := ⌊start / 60⌋
  let seconds : ℚ := start - 60 * ⌊start / 60⌋
  "[" ++ formatMin minutes ++ ":" ++ padZeros 5 (format2 seconds) ++ "]"

/-- Python `str.strip()`: drop whitespace from both ends, modelled on the
character list (`String.trim` itself does not reduce in the kernel). -/
def pyStrip (s : String) : String :=
  String.mk (((s.data.dropWhile Char.isWhitespace).reverse.dropWhile
    Char.isWhitespace).reverse)

/-- One transcript line of `generate_txt_output` (match_speakers.py:316-328):
`start` defaults to `0.0`, `text` to `""` (then stripped), `speaker` to
`"UNKNOWN"`. -/
def render_segment (seg : Segment) : String :=
  format_timestamp (seg.start.getD 0) ++ " " ++ seg.speaker.getD "UNKNOWN" ++ ": " ++
    pyStrip (seg.text.getD "")

/-- Python tuple comparison on `dict.items()` pairs, used by
`sorted(speaker_mapping.items())`: lexicographic, key first. -/
def pairLe (a b : String × String) : Prop :=
  (charListLE a.1.data b.1.data ∧ a.1 ≠ b.1) ∨
    (a.1 = b.1 ∧ charListLE a.2.data b.2.data = true)

instance : DecidableRel pairLe := fun a b =>
  inferInstanceAs (Decidable (_ ∨ _))

/-- `generate_txt_output` (match_speakers.py:290-332), as the text written to
the output file (lines joined with `"\n"`).  `mapping` is the optional
`speaker_mapping` argument; Python's `if speaker_mapping:` makes both `None`
and an empty dict render no header. -/
def generate_txt_output (json_data : Transcript)
    (mapping : Option (List (String × String))) : String :=
  let headerLines : List String :=
    match mapping with
    | none => []
    | some m =>
      if m = [] then []
      else "## Speaker Mapping:" ::
        (m.insertionSort pairLe).map (fun p => "- " ++ p.1 ++ " → " ++ p.2) ++
        ["", "---", ""]
  String.intercalate "\n" (headerLines ++ json_data.map render_segment)

/-- One value of the metadata record `speakers.json`
(extract_speaker_embedding.py:107-114). -/
structure MetaEntry where
  name : String
  created : String
  audio_file : String
  duration : ℚ
  embedding_dim : ℕ
  model : String
deriving DecidableEq, Repr

/-- Python `round(x, 2)` on exactly-representable values. -/
def round2 (x : ℚ) : ℚ := (roundHalfEven (x * 100) : ℚ) / 100

/-- The pure content transformation of `update_metadata`
(extract_speaker_embedding.py:85-118): the loaded metadata dict (absent file
= `[]`) with the whole entry for `speaker_id` replaced.  `created` is the
wall-clock timestamp string, passed as a parameter. -/
def update_metadata (metadata : List (String × MetaEntry))
    (speaker_id speaker_name created audio_file : String)
    (duration : ℚ) (embedding_dim : ℕ) : List (String × MetaEntry) :=
  dictInsert metadata speaker_id
    { name := speaker_name
      created := created
      audio_file := audio_file
      duration := round2 duration
      embedding_dim := embedding_dim
      model := "pyannote/embedding" }

/-- Whether the final `json.dump` of `update_metadata` runs to completion or
the process dies while writing. -/
inductive WriteOutcome where
  | completed
  | crashed
deriving DecidableEq, Repr

/-- The on-disk state of `speakers.json` after an update attempt: a parseable
object, or a torn partial file. -/
inductive MetaFile where
  | ok (entries : List (String × MetaEntry))
  | corrupt
deriving DecidableEq, Repr

/-- `update_metadata`'s effect on the file.  The source writes with
`open(metadata_path, 'w')` + `json.dump` — the file is truncated and
rewritten in place, so a crash mid-write leaves a partial, unparseable file
(no temp-file-then-rename is used); that torn state is `MetaFile.corrupt`. -/
def update_metadata_file (metadata : List (String × MetaEntry))
    (speaker_id speaker_name created audio_file : String)
    (duration : ℚ) (embedding_dim : ℕ) (w : WriteOutcome) : MetaFile :=
  match w with
  | .completed =>
    .ok (update_metadata metadata speaker_id speaker_name created audio_file
          duration embedding_dim)
  | .crashed => .corrupt

/-- Outcome of the `ffprobe` subprocess run in `get_audio_duration`
(extract_speaker_embedding.py:121-134).  `ok v` is a zero exit status with
`v = float(result.stdout.strip())`, `v = none` when that conversion raises
`ValueError`; `nonzeroExit` is `subprocess.CalledProcessError` (from
`check=True`); `launchFailure` is an `OSError` such as `FileNotFoundError`
when the `ffprobe` executable cannot be started. -/
inductive ProbeOutcome where
  | ok (value : Option ℚ)
  | nonzeroExit
  | launchFailure
deriving DecidableEq, Repr

/-- An exception escaping `get_audio_duration`. -/
inductive ProbeError where
  | launchFailure
deriving DecidableEq, Repr

/-- `get_audio_duration` (extract_speaker_embedding.py:121-134): the
`except (subprocess.CalledProcessError, ValueError)` clause recovers those
two failure modes to `0.0`; an `OSError` raised while launching the probe is
not caught and propagates. -/
def get_audio_duration (probe : ProbeOutcome) : Except ProbeError ℚ :=
  match probe with
  | .ok (some v) => .ok v
  | .ok none => .ok 0
  | .nonzeroExit => .ok 0
  | .launchFailure => .error .launchFailure

/-- The filesystem state touched by `delete_speaker` (utils.py:65-90):
the stems of the `.npy` files present, and the raw bytes of `speakers.json`. -/
structure SpeakerStore where
  npyFiles : List String
  speakersJsonBytes : String
deriving DecidableEq, Repr

/-- Python `del metadata[speaker_id]` on a dict with unique keys. -/
def removeKey (m : List (String × MetaEntry)) (speaker_id : String) :
    List (String × MetaEntry) :=
  m.filter (fun p => p.1 ≠ speaker_id)

/-- `delete_speaker` (utils.py:65-90).  `parse`/`ser` are `json.load` and
`json.dump` on the metadata file, kept abstract.  The vector file is checked
first and a missing file returns `False` before anything is read or
written; otherwise the `.npy` file is removed and, when a metadata entry
exists, the metadata file is rewritten without it. -/
def delete_speaker (parse : String → List (String × MetaEntry))
    (ser : List (String × MetaEntry) → String)
    (st : SpeakerStore) (speaker_id : String) : SpeakerStore × Bool :=
  if speaker_id ∈ st.npyFiles then
    let st1 : SpeakerStore := { st with npyFiles := st.npyFiles.erase speaker_id }
    let metadata := parse st.speakersJsonBytes
    if (metadata.lookup speaker_id).isSome then
      ({ st1 with speakersJsonBytes := ser (removeKey metadata speaker_id) }, true)
    else (st1, true)
  else (st, false)

/-- Python `str.title()` character recursion: a letter is uppercased when the
previous character is not a letter, lowercased otherwise. -/
def titleChars : List Char → Bool → List Char
  | [], _ => []
  | c :: cs, prevAlpha =>
    (if prevAlpha then c.toLower else c.toUpper) :: titleChars cs c.isAlpha

/-- Python `str.title()`. -/
def str_title (s : String) : String := String.mk (titleChars s.data false)

/-- The display name `load_speaker_profiles` resolves for a vector-file stem
(match_speakers.py:59-63): the metadata `name` when an entry exists, else
`speaker_id.replace("_", " ").title()`. -/
def display_name (metadata : List (String × MetaEntry)) (speaker_id : String) :
    String :=
  match metadata.lookup speaker_id with
  | some entry => entry.name
  | none => str_title (speaker_id.replace "_" " ")

/-- `load_speaker_profiles` (match_speakers.py:35-67).  `files` is the
directory scan: `(stem, loaded vector)` for each `*.npy` file in iteration
order; the result is the dict built by `profiles[display_name] = embedding`. -/
def load_speaker_profiles (files : List (String × Emb))
    (metadata : List (String × MetaEntry)) : List (String × Emb) :=
  files.foldl (fun profiles f => dictInsert profiles (display_name metadata f.1) f.2) []

/-! ## Theorems -/

/-- C2 counterexample: the claim says every self-mapped label other than the
reserved `"UNKNOWN"` is sent to the `"[Not Matched]"` sentinel, but a
self-mapped label that does not start with `"SPEAKER_"` is passed through
unchanged, i.e. left mapping to itself. -/
theorem C2_counterexample :
    build_speaker_header_mapping [("Bob", "Bob")] = [("Bob", "Bob")] ∧
    ("Bob" : String) ≠ "UNKNOWN" ∧ ("Bob" : String) ≠ "[Not Matched]" := by
  decide

/-- C2 (amended): `build_speaker_header_mapping` sends `"UNKNOWN"` to
`"[Unknown Speaker]"`, sends a label equal to its resolution to
`"[Not Matched]"` when it starts with `"SPEAKER_"` and passes it through
unchanged otherwise, and passes every other label's matched name through —
so no self-mapped `SPEAKER_`-prefixed label is left mapping to itself. -/
theorem C2_header_mapping (m : List (String × String)) :
    build_speaker_header_mapping m =
      m.map (fun p => (p.1, headerDisplaySpec p.1 p.2)) ∧
    (∀ l r, (l, r) ∈ build_speaker_header_mapping m → l ≠ "UNKNOWN" →
      startsWithB l "SPEAKER_" = true → r ≠ l) := by
  constructor
  · apply List.map_congr_left
    intro p _
    simp only [headerDisplaySpec]
    split_ifs <;> rfl
  · intro l r hmem hunk hsw
    unfold build_speaker_header_mapping at hmem
    obtain ⟨p, hp, hfp⟩ := List.mem_map.mp hmem
    split_ifs at hfp with h1 h2 h3
    · rw [Prod.mk.injEq] at hfp
      obtain ⟨rfl, rfl⟩ := hfp
      exact absurd h1 hunk
    · rw [Prod.mk.injEq] at hfp
      obtain ⟨rfl, rfl⟩ := hfp
      intro he
      rw [← he] at hsw
      exact absurd hsw (by decide)
    · rw [Prod.mk.injEq] at hfp
      obtain ⟨rfl, rfl⟩ := hfp
      exact absurd hsw h3
    · rw [Prod.mk.injEq] at hfp
      obtain ⟨rfl, rfl⟩ := hfp
      intro he
      exact h2 he.symm

/-- C2 witness: a self-mapped `SPEAKER_`-prefixed label is reclassified to
the not-matched sentinel, which differs from the label. -/
theorem C2_witness :
    ("SPEAKER_03", "[Not Matched]") ∈
      build_speaker_header_mapping [("SPEAKER_03", "SPEAKER_03")] ∧
    ("[Not Matched]" : String) ≠ "SPEAKER_03" :=
  ⟨by decide,
   (C2_header_mapping [("SPEAKER_03", "SPEAKER_03")]).2 "SPEAKER_03" "[Not Matched]"
     (by decide) (by decide) (by decide)⟩

/-- C3: the metadata write of `update_metadata` is a truncating in-place
rewrite of `speakers.json`, so a crash during the write corrupts the file
and loses the entries of unrelated speaker ids — while a completed write
does replace the whole entry for the given id and keeps the others. -/
theorem C3_metadata_write_not_atomic :
    update_metadata_file
      [("alice", ⟨"Alice", "2025-01-01T00:00:00Z", "alice.wav", 5, 512,
        "pyannote/embedding"⟩)]
      "bob" "Bob" "2026-01-01T00:00:00Z" "bob.wav" 10 512 .crashed = .corrupt ∧
    update_metadata_file
      [("alice", ⟨"Alice", "2025-01-01T00:00:00Z", "alice.wav", 5, 512,
        "pyannote/embedding"⟩)]
      "bob" "Bob" "2026-01-01T00:00:00Z" "bob.wav" 10 512 .completed =
      .ok [("alice", ⟨"Alice", "2025-01-01T00:00:00Z", "alice.wav", 5, 512,
             "pyannote/embedding"⟩),
           ("bob", ⟨"Bob", "2026-01-01T00:00:00Z", "bob.wav", 10, 512,
             "pyannote/embedding"⟩)] := by
  constructor
  · rfl
  · norm_num [update_metadata_file, update_metadata, dictInsert, round2,
      roundHalfEven, List.lookup]
    decide

/-- C4: with an empty profile store, `match_speakers` returns the identity
mapping on the distinct raw labels of the transcript, for every transcript
and embedding oracle; and with no distinct raw labels it returns the empty
mapping, for every profile store. -/
theorem C4_empty_cases :
    (∀ (segEmbed : String → ℚ × ℚ → Option Emb) (t : Transcript) (θ : ℚ),
      match_speakers segEmbed t [] θ = (speakersOf t).map (fun s => (s, some s))) ∧
    (∀ (segEmbed : String → ℚ × ℚ → Option Emb) (t : Transcript)
      (profiles : List (String × Emb)) (θ : ℚ), speakersOf t = [] →
      match_speakers segEmbed t profiles θ = []) := by
  constructor
  · intro segEmbed t θ
    simp [match_speakers]
  · intro segEmbed t profiles θ h
    simp [match_speakers, h]

/-- C4 witness: a transcript whose only segment has no speaker label has no
distinct raw labels, and matching against a nonempty profile store returns
the empty mapping. -/
theorem C4_witness :
    speakersOf [⟨some 0, some 5, some "x", none⟩] = [] ∧
    match_speakers (fun _ _ => none) [⟨some 0, some 5, some "x", none⟩]
      [("Arthur", [1])] (3/4) = [] :=
  ⟨by decide,
   C4_empty_cases.2 (fun _ _ => none) [⟨some 0, some 5, some "x", none⟩]
     [("Arthur", [1])] (3/4) (by decide)⟩

/-- C7: `delete_speaker` on an id whose vector file does not exist returns
`false` and performs no side effects — the store (including the raw bytes of
the metadata file) is returned unchanged, whatever the metadata contains. -/
theorem C7_delete_missing (parse : String → List (String × MetaEntry))
    (ser : List (String × MetaEntry) → String) (st : SpeakerStore)
    (speaker_id : String) (h : speaker_id ∉ st.npyFiles) :
    delete_speaker parse ser st speaker_id = (st, false) := by
  simp [delete_speaker, h]

/-- C7 witness: deleting the id `"ghost"`, absent among the vector files but
present as a stale metadata entry, returns `false` and leaves the store
byte-for-byte unchanged. -/
theorem C7_witness :
    ("ghost" ∉ (⟨["alice"], "{stale}"⟩ : SpeakerStore).npyFiles) ∧
    delete_speaker
      (fun _ => [("ghost", ⟨"Ghost", "t", "a", 0, 1, "m"⟩)]) (fun _ => "")
      ⟨["alice"], "{stale}"⟩ "ghost" = (⟨["alice"], "{stale}"⟩, false) :=
  ⟨by decide,
   C7_delete_missing (fun _ => [("ghost", ⟨"Ghost", "t", "a", 0, 1, "m"⟩)])
     (fun _ => "") ⟨["alice"], "{stale}"⟩ "ghost" (by decide)⟩

/-- C8: `apply_speaker_mapping` maps each segment through `apply_segment`,
preserving the number and order of segments; `apply_segment` never changes
`start`, `end` or `text`; a segment with no truthy label, or whose label has
no mapping entry, is returned untouched; and a segment whose truthy label has
a mapping entry gets exactly that resolution as its new label.  (An empty
string label counts as unlabeled: Python's `if old_speaker:` is falsy on it.) -/
theorem C8_apply_mapping (t : Transcript) (m : List (String × String)) :
    apply_speaker_mapping t m = t.map (apply_segment m) ∧
    (apply_speaker_mapping t m).length = t.length ∧
    (∀ i, (apply_speaker_mapping t m).get? i = (t.get? i).map (apply_segment m)) ∧
    (∀ seg, (apply_segment m seg).start = seg.start ∧
      (apply_segment m seg).stop = seg.stop ∧
      (apply_segment m seg).text = seg.text) ∧
    (∀ seg, truthy seg.speaker = false → apply_segment m seg = seg) ∧
    (∀ seg sp r, seg.speaker = some sp → sp ≠ "" → m.lookup sp = some r →
      apply_segment m seg = { seg with speaker := some r }) ∧
    (∀ seg sp, seg.speaker = some sp → m.lookup sp = none →
      apply_segment m seg = seg) := by
  refine ⟨rfl, List.length_map .., fun i => List.get?_map .., ?_, ?_, ?_, ?_⟩
  · intro seg
    unfold apply_segment
    cases hs : seg.speaker with
    | none => exact ⟨rfl, rfl, rfl⟩
    | some sp =>
      by_cases he : sp = ""
      · simp [he]
      · simp only [he, ne_eq, not_false_eq_true, if_true]
        cases m.lookup sp <;> exact ⟨rfl, rfl, rfl⟩
  · intro seg h
    unfold apply_segment
    cases hs : seg.speaker with
    | none => rfl
    | some sp =>
      rw [hs] at h
      simp only [truthy, ne_eq, decide_eq_false_iff_not, not_not] at h
      simp [h]
  · intro seg sp r hs hne hl
    unfold apply_segment
    rw [hs]
    simp [hne, hl]
  · intro seg sp hs hl
    unfold apply_segment
    rw [hs]
    by_cases he : sp = ""
    · simp [he]
    · simp [he, hl]

/-- C8 witness: a concrete labeled segment has its label replaced by the
mapping's resolution, with all other fields untouched. -/
theorem C8_witness :
    apply_segment [("SPEAKER_00", "Arthur")]
      ⟨some 0, some 3, some "hello", some "SPEAKER_00"⟩ =
      ⟨some 0, some 3, some "hello", some "Arthur"⟩ :=
  (C8_apply_mapping [] [("SPEAKER_00", "Arthur")]).2.2.2.2.2.1
    ⟨some 0, some 3, some "hello", some "SPEAKER_00"⟩ "SPEAKER_00" "Arthur"
    rfl (by decide) (by decide)

/-- C9 counterexample: the claim says every probe failure yields `0.0`, but a
failure to launch the probe (`ffprobe` missing raises `OSError`) is not
caught by `except (CalledProcessError, ValueError)` and propagates. -/
theorem C9_counterexample :
    get_audio_duration .launchFailure = .error .launchFailure ∧
    get_audio_duration .launchFailure ≠ .ok 0 :=
  ⟨rfl, fun h => Except.noConfusion h⟩

/-- C9 (amended): `get_audio_duration` returns the parsed duration on
success, returns `0.0` when the probe exits nonzero or its output fails to
parse as a float, and propagates an error when the probe cannot be
launched. -/
theorem C9_probe_recovery :
    (∀ v : ℚ, get_audio_duration (.ok (some v)) = .ok v) ∧
    get_audio_duration (.ok none) = .ok 0 ∧
    get_audio_duration .nonzeroExit = .ok 0 ∧
    get_audio_duration .launchFailure = .error .launchFailure :=
  ⟨fun _ => rfl, rfl, rfl, rfl⟩

/-- Evaluation helper: `format_timestamp` once the floor of the start time is
known. -/
theorem format_timestamp_eval (q : ℚ) (m : ℤ) (s : ℚ)
    (hm : ⌊q / 60⌋ = m) (hs : q - 60 * (m : ℚ) = s) :
    format_timestamp q = "[" ++ formatMin m ++ ":" ++ padZeros 5 (format2 s) ++ "]" := by
  simp only [format_timestamp, hm, hs]

/-- Evaluation helper: `format2` once the scaled rounding is known. -/
theorem format2_eval (q : ℚ) (n : ℤ) (h : roundHalfEven (q * 100) = n) :
    format2 q = toString (n.toNat / 100) ++ "." ++ padZeros 2 (toString (n.toNat % 100)) := by
  simp only [format2, h]

/-- C6: with no header mapping, `generate_txt_output` emits exactly one line
per segment, in original order, each line being `render_segment`; a segment
lacking a speaker label renders with the raw token `"UNKNOWN"`; and the
segment `{start: 75.5, text: " hi ", speaker: "X"}` rendered with no header
produces exactly `"[01:15.50] X: hi"`, with no leading block and no
separator. -/
theorem C6_render_format (t : Transcript) :
    generate_txt_output t none = String.intercalate "\n" (t.map render_segment) ∧
    (∀ i, (t.map render_segment).get? i = (t.get? i).map render_segment) ∧
    (∀ seg, seg.speaker = none →
      render_segment seg =
        format_timestamp (seg.start.getD 0) ++ " " ++ "UNKNOWN" ++ ": " ++
          pyStrip (seg.text.getD "")) ∧
    generate_txt_output [⟨some (151/2), none, some " hi ", some "X"⟩] none =
      "[01:15.50] X: hi" := by
  refine ⟨rfl, fun i => List.get?_map .., ?_, ?_⟩
  · intro seg h
    simp [render_segment, h]
  · have hts : format_timestamp ((151 : ℚ)/2) = "[01:15.50]" := by
      rw [format_timestamp_eval ((151 : ℚ)/2) 1 (31/2) (by norm_num) (by norm_num)]
      rw [format2_eval ((31 : ℚ)/2) 1550 (by norm_num [roundHalfEven])]
      decide
    show String.intercalate "\n"
      ([] ++ [render_segment ⟨some (151/2), none, some " hi ", some "X"⟩]) = _
    simp only [render_segment, Option.getD]
    rw [hts]
    decide

/-- C6 witness: a concrete segment with no speaker label renders with the raw
`"UNKNOWN"` token. -/
theorem C6_witness :
    render_segment ⟨some 0, none, some " x ", none⟩ =
      format_timestamp ((Option.some (0 : ℚ)).getD 0) ++ " " ++ "UNKNOWN" ++ ": " ++
        pyStrip ((Option.some " x ").getD "") :=
  (C6_render_format []).2.2.1 ⟨some 0, none, some " x ", none⟩ rfl

/-- Python dict assignment, read back: the inserted key returns the new
value, every other key is unaffected. -/
theorem lookup_dictInsert {α : Type} (m : List (String × α)) (k x : String) (v : α) :
    (dictInsert m k v).lookup x = if x = k then some v else m.lookup x := by
  have hmap : ∀ (m' : List (String × α)),
      (m'.map (fun p => if p.1 = k then (k, v) else p)).lookup x =
        if x = k then (m'.lookup k).map (fun _ => v) else m'.lookup x := by
    intro m'
    induction m' with
    | nil => simp [List.lookup]
    | cons hd tl ih =>
      obtain ⟨a, b⟩ := hd
      by_cases hxa : x = a
      · subst hxa
        by_cases hxk : x = k
        · subst hxk
          simp [List.lookup_cons]
        · simp [List.lookup_cons, hxk]
      · have hbeq : (x == a) = false := beq_eq_false_iff_ne.mpr hxa
        by_cases hak : a = k
        · subst hak
          simp [List.lookup_cons, hbeq, ih, hxa]
        · have hka : (k == a) = false :=
            beq_eq_false_iff_ne.mpr (fun h => hak h.symm)
          simp [List.lookup_cons, hbeq, hka, ih, hak]
  unfold dictInsert
  by_cases hk : (m.lookup k).isSome
  · rw [if_pos hk, hmap]
    by_cases hxk : x = k
    · rw [if_pos hxk, if_pos hxk]
      obtain ⟨w, hw⟩ := Option.isSome_iff_exists.mp hk
      rw [hw]
      rfl
    · rw [if_neg hxk, if_neg hxk]
  · rw [if_neg hk, List.lookup_append]
    rw [Option.not_isSome_iff_eq_none] at hk
    by_cases hxk : x = k
    · subst hxk
      rw [hk]
      simp [List.lookup_cons]
    · have hxkb : (x == k) = false := beq_eq_false_iff_ne.mpr hxk
      rw [if_neg hxk]
      cases hmx : m.lookup x <;> simp [hmx, List.lookup_cons, hxkb, List.lookup]

/-- The profile dict built by `load_speaker_profiles`, read back: a display
name returns the embedding of the last scanned file resolving to it. -/
theorem load_fold_lookup (md : List (String × MetaEntry)) (name : String) :
    ∀ (files : List (String × Emb)) (acc : List (String × Emb)),
    (files.foldl (fun profiles f =>
        dictInsert profiles (display_name md f.1) f.2) acc).lookup name =
      match files.reverse.find? (fun f => display_name md f.1 == name) with
      | some f => some f.2
      | none => acc.lookup name := by
  intro files
  induction files with
  | nil => intro acc; simp
  | cons f fs ih =>
    intro acc
    rw [List.foldl_cons, ih, List.reverse_cons, List.find?_append]
    cases hfind : fs.reverse.find? (fun g => display_name md g.1 == name) with
    | some g => simp
    | none =>
      simp only [Option.none_or]
      rw [lookup_dictInsert]
      by_cases h : display_name md f.1 = name
      · simp [List.find?, h]
      · have hne : (display_name md f.1 == name) = false := beq_eq_false_iff_ne.mpr h
        have hsymm : name ≠ display_name md f.1 := fun hh => h hh.symm
        simp [List.find?, hne, hsymm]

/-- Python dict assignment grows the dict by at most one binding. -/
theorem length_dictInsert {α : Type} (m : List (String × α)) (k : String) (v : α) :
    (dictInsert m k v).length ≤ m.length + 1 := by
  unfold dictInsert
  split
  · rw [List.length_map]
    exact Nat.le_succ _
  · simp

/-- The profile dict is never larger than the accumulator plus the number of
scanned files. -/
theorem load_fold_length (md : List (String × MetaEntry)) :
    ∀ (files : List (String × Emb)) (acc : List (String × Emb)),
    (files.foldl (fun profiles f =>
        dictInsert profiles (display_name md f.1) f.2) acc).length ≤
      acc.length + files.length := by
  intro files
  induction files with
  | nil => intro acc; simp
  | cons f fs ih =>
    intro acc
    rw [List.foldl_cons]
    calc (fs.foldl _ (dictInsert acc (display_name md f.1) f.2)).length
        ≤ (dictInsert acc (display_name md f.1) f.2).length + fs.length := ih _
      _ ≤ (acc.length + 1) + fs.length :=
          Nat.add_le_add_right (length_dictInsert ..) _
      _ = acc.length + (f :: fs).length := by simp [Nat.add_assoc, Nat.add_comm 1]

/-- C10: `load_speaker_profiles` keys the result by resolved display name:
looking a name up returns the embedding of the *last* vector file (in
iteration order) whose id resolves to that name; the profile dict is never
larger than the file list; and two files whose ids resolve to the same
display name yield a single profile holding the later file's embedding. -/
theorem C10_load_by_display_name :
    (∀ (files : List (String × Emb)) (md : List (String × MetaEntry)) (name : String),
      (load_speaker_profiles files md).lookup name =
        match files.reverse.find? (fun f => display_name md f.1 == name) with
        | some f => some f.2
        | none => none) ∧
    (∀ (files : List (String × Emb)) (md : List (String × MetaEntry)),
      (load_speaker_profiles files md).length ≤ files.length) ∧
    load_speaker_profiles [("bob", [1]), ("robert", [2])]
        [("bob", ⟨"Bob", "t1", "a1", 1, 1, "m"⟩),
         ("robert", ⟨"Bob", "t2", "a2", 1, 1, "m"⟩)] = [("Bob", [2])] ∧
    (load_speaker_profiles [("bob", [1]), ("robert", [2])]
        [("bob", ⟨"Bob", "t1", "a1", 1, 1, "m"⟩),
         ("robert", ⟨"Bob", "t2", "a2", 1, 1, "m"⟩)]).length < 2 := by
  refine ⟨?_, ?_, by decide, by decide⟩
  · intro files md name
    have h := load_fold_lookup md name files []
    simpa [load_speaker_profiles] using h
  · intro files md
    have h := load_fold_length md files []
    simpa [load_speaker_profiles] using h

/-- Looking up a key in a map of the form `s ↦ (s, g s)` returns the image of
that key. -/
theorem lookup_map_fst {β : Type} (f : String → String × β)
    (hf : ∀ s, (f s).1 = s) :
    ∀ (l : List String) (x : String), x ∈ l →
      (l.map f).lookup x = some (f x).2 := by
  intro l
  induction l with
  | nil => intro x hx; cases hx
  | cons h t ih =>
    intro x hx
    simp only [List.map_cons]
    by_cases hxh : x = h
    · subst hxh
      rw [← Prod.mk.eta (p := f x), List.lookup_cons, hf x]
      simp
    · have hb : (x == h) = false := beq_eq_false_iff_ne.mpr hxh
      rw [← Prod.mk.eta (p := f h), List.lookup_cons, hf h, hb]
      exact ih x (List.mem_of_ne_of_mem hxh hx)

/-- C5: the `(start, end)` pairs selected for a label are exactly the
segments carrying that label with duration ≥ 2.0 s; the processed list is
their stable sort by duration descending truncated to the first 10, which is
a permutation-complement-dominating prefix of at most 10 entries; and when no
segment qualifies the label maps to itself with no extraction attempted (the
result does not depend on the embedding oracle). -/
theorem C5_segment_selection (t : Transcript) (label : String) :
    (∀ p : ℚ × ℚ, p ∈ extract_speaker_segments t label ↔
      ∃ seg ∈ t, seg.speaker = some label ∧
        p = (seg.start.getD 0, seg.stop.getD 0) ∧ 2 ≤ p.2 - p.1) ∧
    ((extract_speaker_segments t label).insertionSort durGe).Pairwise durGe ∧
    (((extract_speaker_segments t label).insertionSort durGe).take 10 ++
        ((extract_speaker_segments t label).insertionSort durGe).drop 10).Perm
      (extract_speaker_segments t label) ∧
    (((extract_speaker_segments t label).insertionSort durGe).take 10).length =
      min 10 (extract_speaker_segments t label).length ∧
    (∀ a ∈ ((extract_speaker_segments t label).insertionSort durGe).take 10,
      ∀ b ∈ ((extract_speaker_segments t label).insertionSort durGe).drop 10,
        b.2 - b.1 ≤ a.2 - a.1) ∧
    (∀ (segEmbed : String → ℚ × ℚ → Option Emb)
      (profiles : List (String × Emb)) (θ : ℚ),
      extract_speaker_segments t label = [] → label ∈ speakersOf t →
      (match_speakers segEmbed t profiles θ).lookup label = some (some label)) := by
  refine ⟨?_, ?_, ?_, ?_, ?_, ?_⟩
  · intro p
    simp only [extract_speaker_segments, List.mem_filterMap]
    constructor
    · rintro ⟨seg, hseg, hf⟩
      refine ⟨seg, hseg, ?_⟩
      by_cases h1 : seg.speaker = some label
      · rw [if_pos h1] at hf
        by_cases h2 : seg.stop.getD 0 - seg.start.getD 0 ≥ 2
        · rw [if_pos h2] at hf
          obtain rfl := Option.some.inj hf
          exact ⟨h1, rfl, h2⟩
        · rw [if_neg h2] at hf
          cases hf
      · rw [if_neg h1] at hf
        cases hf
    · rintro ⟨seg, hseg, h1, rfl, h2⟩
      exact ⟨seg, hseg, by rw [if_pos h1, if_pos h2]⟩
  · exact List.sorted_insertionSort durGe _
  · rw [List.take_append_drop]
    exact List.perm_insertionSort durGe _
  · rw [List.length_take, (List.perm_insertionSort durGe
      (extract_speaker_segments t label)).length_eq]
  · intro a ha b hb
    have hp := List.sorted_insertionSort durGe (extract_speaker_segments t label)
    rw [← List.take_append_drop 10
      ((extract_speaker_segments t label).insertionSort durGe)] at hp
    exact (List.pairwise_append.mp hp).2.2 a ha b hb
  · intro segEmbed profiles θ hseg hmem
    unfold match_speakers
    by_cases hp : profiles = []
    · rw [if_pos hp]
      rw [lookup_map_fst (fun s => (s, some s)) (fun _ => rfl) _ _ hmem]
    · rw [if_neg hp]
      rw [lookup_map_fst _ ?_ _ _ hmem]
      · simp only [hseg, if_pos]
      · intro s
        dsimp only
        split
        · rfl
        · split <;> rfl

/-- C5 witness: for a transcript whose only segment for label `"A"` is
shorter than 2 s, no segment qualifies and matching maps the label to
itself, for an arbitrary embedding oracle. -/
theorem C5_witness :
    extract_speaker_segments [⟨some 0, some 1, some "hi", some "A"⟩] "A" = [] ∧
    (match_speakers (fun _ _ => none) [⟨some 0, some 1, some "hi", some "A"⟩]
      [("P", [1])] (3/4)).lookup "A" = some (some "A") := by
  have hseg : extract_speaker_segments [⟨some 0, some 1, some "hi", some "A"⟩] "A" = [] := by
    norm_num [extract_speaker_segments]
  exact ⟨hseg,
    (C5_segment_selection [⟨some 0, some 1, some "hi", some "A"⟩] "A").2.2.2.2.2
      (fun _ _ => none) [("P", [1])] (3/4) hseg (by decide)⟩

/-- `find?` on a decomposed list whose prefix fails the predicate returns the
element at the split point when it satisfies it. -/
theorem find?_first {α : Type} (pred : α → Bool) (l₁ l₂ : List α) (x : α)
    (h1 : ∀ q ∈ l₁, pred q = false) (hx : pred x = true) :
    (l₁ ++ x :: l₂).find? pred = some x := by
  induction l₁ with
  | nil => simp [List.find?, hx]
  | cons a as ih =>
    rw [List.cons_append, List.find?_cons_of_neg _
      (by rw [h1 a (List.mem_cons_self ..)]; exact Bool.false_ne_true)]
    exact ih (fun q hq => h1 q (List.mem_cons_of_mem _ hq))

/-- The best-profile fold of `match_speakers`: either no similarity beats the
accumulator and it is returned unchanged, or the result carries the first
profile achieving the maximum similarity, which strictly beats the
accumulator. -/
theorem bestFold_cases (e : Emb) :
    ∀ (l : List (String × Emb)) (acc : Option String × ℚ),
    (l.foldl (bestStep e) acc = acc ∧
      ∀ p ∈ l, cosine_similarity e p.2 ≤ acc.2) ∨
    (∃ l₁ p l₂, l = l₁ ++ p :: l₂ ∧
      l.foldl (bestStep e) acc = (some p.1, cosine_similarity e p.2) ∧
      acc.2 < cosine_similarity e p.2 ∧
      (∀ q ∈ l, cosine_similarity e q.2 ≤ cosine_similarity e p.2) ∧
      (∀ q ∈ l₁, cosine_similarity e q.2 < cosine_similarity e p.2)) := by
  intro l
  induction l with
  | nil => intro acc; exact Or.inl ⟨rfl, by simp⟩
  | cons h t ih =>
    intro acc
    rw [List.foldl_cons]
    by_cases hcmp : cosine_similarity e h.2 > acc.2
    · have hstep : bestStep e acc h = (some h.1, cosine_similarity e h.2) := by
        unfold bestStep; rw [if_pos hcmp]
      rw [hstep]
      rcases ih (some h.1, cosine_similarity e h.2) with
        ⟨hfold, hall⟩ | ⟨l₁, p, l₂, happ, hfold, hacc, hmax, hfirst⟩
      · refine Or.inr ⟨[], h, t, rfl, by rw [hfold], hcmp, ?_, by simp⟩
        intro q hq
        rcases List.mem_cons.mp hq with rfl | hq'
        · exact le_refl _
        · exact hall q hq'
      · refine Or.inr ⟨h :: l₁, p, l₂, by simp [happ], hfold,
          lt_trans hcmp hacc, ?_, ?_⟩
        · intro q hq
          rcases List.mem_cons.mp hq with rfl | hq'
          · exact le_of_lt hacc
          · exact hmax q hq'
        · intro q hq
          rcases List.mem_cons.mp hq with rfl | hq'
          · exact hacc
          · exact hfirst q hq'
    · have hle : cosine_similarity e h.2 ≤ acc.2 := not_lt.mp hcmp
      have hstep : bestStep e acc h = acc := by
        unfold bestStep; rw [if_neg hcmp]
      rw [hstep]
      rcases ih acc with
        ⟨hfold, hall⟩ | ⟨l₁, p, l₂, happ, hfold, hacc, hmax, hfirst⟩
      · refine Or.inl ⟨hfold, ?_⟩
        intro q hq
        rcases List.mem_cons.mp hq with rfl | hq'
        · exact hle
        · exact hall q hq'
      · refine Or.inr ⟨h :: l₁, p, l₂, by simp [happ], hfold, hacc, ?_, ?_⟩
        · intro q hq
          rcases List.mem_cons.mp hq with rfl | hq'
          · exact le_trans hle (le_of_lt hacc)
          · exact hmax q hq'
        · intro q hq
          rcases List.mem_cons.mp hq with rfl | hq'
          · exact lt_of_le_of_lt hle hacc
          · exact hfirst q hq'

/-- C1 counterexample: with the single profile `A = [-1, 0]`, representative
embedding `[1, 0]` and threshold `-1`, the (unique, hence maximum) similarity
is `-1 ≥ threshold`, so the claim says the label resolves to `A`'s display
name — but the fold's strict comparison never beats its `-1.0` sentinel and
the code stores Python `None`, which is neither a profile name nor the
label. -/
theorem C1_counterexample :
    cosine_similarity [1, 0] [-1, 0] = -1 ∧
    ((-1 : ℚ) ≥ -1) ∧
    resolveLabel [("A", [-1, 0])] (-1) "SPEAKER_00" [1, 0] = none := by
  refine ⟨?_, le_refl _, ?_⟩
  · norm_num [cosine_similarity, dot, vnorm, ratSqrt, isqrt, isqrtGo]
  · norm_num [resolveLabel, bestStep, cosine_similarity, dot, vnorm, ratSqrt,
      isqrt, isqrtGo]

/-- C1 (amended): for a label with computed representative embedding `e`,
if some profile's similarity exceeds the fold's `-1.0` sentinel and the
maximum similarity is `≥ threshold`, the label resolves to the display name
of the first profile (in store-iteration order) achieving that maximum; if
every similarity is below the threshold (similarities lying in cosine's
range `≥ -1`), the label maps to itself; and on the spec's concrete example
(`sim = 0.80` and `0.60`) threshold `0.75` resolves to `A` while threshold
`0.85` maps the label to itself. -/
theorem C1_matcher_selection (e : Emb) (profiles : List (String × Emb))
    (threshold : ℚ) (label : String) :
    (∀ p, firstArgmax e profiles = some p →
      -1 < cosine_similarity e p.2 → threshold ≤ cosine_similarity e p.2 →
      resolveLabel profiles threshold label e = some p.1) ∧
    (profiles ≠ [] → (∀ p ∈ profiles, -1 ≤ cosine_similarity e p.2) →
      (∀ p ∈ profiles, cosine_similarity e p.2 < threshold) →
      resolveLabel profiles threshold label e = some label) ∧
    cosine_similarity [1, 0] [4, 3] = 4/5 ∧
    cosine_similarity [1, 0] [3, 4] = 3/5 ∧
    resolveLabel [("A", [4, 3]), ("B", [3, 4])] (3/4) "SPEAKER_00" [1, 0] =
      some "A" ∧
    resolveLabel [("A", [4, 3]), ("B", [3, 4])] (17/20) "SPEAKER_00" [1, 0] =
      some "SPEAKER_00" := by
  refine ⟨?_, ?_, ?_, ?_, ?_, ?_⟩
  · intro p hfa hgt hth
    have hpmem : p ∈ profiles := List.mem_of_find?_eq_some hfa
    have hpall : ∀ q ∈ profiles,
        cosine_similarity e q.2 ≤ cosine_similarity e p.2 := by
      have hpred := List.find?_some hfa
      simp only [List.all_eq_true, decide_eq_true_eq] at hpred
      exact hpred
    rcases bestFold_cases e profiles (none, -1) with
      ⟨hfold, hall⟩ | ⟨l₁, q, l₂, happ, hfold, hacc, hmax, hfirst⟩
    · exact absurd (hall p hpmem) (not_le.mpr hgt)
    · have hqmem : q ∈ profiles := by
        rw [happ]; exact List.mem_append_right _ (List.mem_cons_self ..)
      have hqfind : profiles.find? (fun r => profiles.all (fun s =>
          decide (cosine_similarity e s.2 ≤ cosine_similarity e r.2))) = some q := by
        rw [happ]
        apply find?_first
        · intro x hx
          by_contra hxx
          rw [Bool.not_eq_false, List.all_eq_true] at hxx
          have h1 := hxx q (List.mem_append_right _ (List.mem_cons_self ..))
          rw [decide_eq_true_eq] at h1
          exact absurd (hfirst x hx) (not_lt.mpr h1)
        · rw [List.all_eq_true]
          intro s hs
          rw [decide_eq_true_eq]
          exact hmax s (happ ▸ hs)
      have hpq : p = q :=
        Option.some.inj (hfa.symm.trans
          (show firstArgmax e profiles = some q from hqfind))
      subst hpq
      simp only [resolveLabel]
      rw [hfold, if_pos hth]
  · intro hne hge hlt
    simp only [resolveLabel]
    rcases bestFold_cases e profiles (none, -1) with
      ⟨hfold, hall⟩ | ⟨l₁, q, l₂, happ, hfold, hacc, hmax, hfirst⟩
    · rw [hfold]
      obtain ⟨p0, hp0⟩ := List.exists_mem_of_ne_nil profiles hne
      have hthr : (-1 : ℚ) < threshold := lt_of_le_of_lt (hge p0 hp0) (hlt p0 hp0)
      rw [if_neg (not_le.mpr hthr)]
    · rw [hfold]
      have hqmem : q ∈ profiles := by
        rw [happ]; exact List.mem_append_right _ (List.mem_cons_self ..)
      rw [if_neg (not_le.mpr (hlt q hqmem))]
  · norm_num [cosine_similarity, dot, vnorm, ratSqrt, isqrt, isqrtGo]
  · norm_num [cosine_similarity, dot, vnorm, ratSqrt, isqrt, isqrtGo]
  · norm_num [resolveLabel, bestStep, cosine_similarity, dot, vnorm, ratSqrt,
      isqrt, isqrtGo]
  · norm_num [resolveLabel, bestStep, cosine_similarity, dot, vnorm, ratSqrt,
      isqrt, isqrtGo]

/-- C1 witness: on the concrete two-profile store, the first argmax is `A`
with similarity `0.8 > -1` and `≥ 0.75`, and the label resolves to `"A"`. -/
theorem C1_witness :
    firstArgmax [1, 0] [("A", [4, 3]), ("B", [3, 4])] = some ("A", [4, 3]) ∧
    resolveLabel [("A", [4, 3]), ("B", [3, 4])] (3/4) "X" [1, 0] = some "A" := by
  have hfa : firstArgmax [1, 0] [("A", [4, 3]), ("B", [3, 4])] = some ("A", [4, 3]) := by
    norm_num [firstArgmax, List.find?, List.all, cosine_similarity, dot, vnorm,
      ratSqrt, isqrt, isqrtGo]
  refine ⟨hfa, ?_⟩
  have := (C1_matcher_selection [1, 0] [("A", [4, 3]), ("B", [3, 4])] (3/4) "X").1
    ("A", [4, 3]) hfa (by norm_num [cosine_similarity, dot, vnorm, ratSqrt,
      isqrt, isqrtGo]) (by norm_num [cosine_similarity, dot, vnorm, ratSqrt,
      isqrt, isqrtGo])
  exact this

end Whx
